import Mathlib

/-!
Shallow embedding of src/main/main.cpp (a NimBLE BLE client demo) and proofs
about its connection workflow, scan callback, poll loop, notification handler
and authentication callback.

The BLE host stack is external: its observable behaviour (results of connect
calls, the remote GATT database) enters the embedding as explicit parameters,
while the state the program manipulates through the stack API (client list,
scanning status) is made explicit in BLEState.
-/

namespace EspHidHost

/-- Service or characteristic UUID, in its short string form, e.g. "1812". -/
abbrev UUID := String

/-- Advertised device reference: peer address plus advertised service UUIDs
(the fields of NimBLEAdvertisedDevice the program reads). -/
structure NimBLEAdvertisedDevice where
  addr : Nat
  advServices : List UUID
deriving DecidableEq, Repr

/-- Embeds NimBLEAdvertisedDevice.isAdvertisingService: membership of the
UUID in the advertised service set. -/
def NimBLEAdvertisedDevice.isAdvertisingService (d : NimBLEAdvertisedDevice) (u : UUID) : Bool :=
  d.advServices.contains u

/-- Client handle owned by the stack: an id (also its connection handle),
the peer address it is associated with, and its connected status. -/
structure NimBLEClient where
  id : Nat
  peer : Option Nat
  connected : Bool
deriving DecidableEq, Repr

/-- BLE stack state visible to this program: the client list, whether a scan
is running, and the next fresh client id. -/
structure BLEState where
  clients : List NimBLEClient
  scanning : Bool
  nextId : Nat
deriving DecidableEq, Repr

/-- Embeds NimBLEDevice::getClientListSize(). -/
def getClientListSize (st : BLEState) : Nat :=
  st.clients.length

/-- Embeds NimBLEDevice::getClientByPeerAddress(addr): first client whose
peer address matches. -/
def getClientByPeerAddress (st : BLEState) (addr : Nat) : Option NimBLEClient :=
  st.clients.find? (fun c => c.peer == some addr)

/-- Embeds NimBLEDevice::getDisconnectedClient(): first client that is not
connected. -/
def getDisconnectedClient (st : BLEState) : Option NimBLEClient :=
  st.clients.find? (fun c => !c.connected)

/-- Embeds NimBLEDevice::getClientByID(handle): first client whose id equals
the connection handle. -/
def getClientByID (st : BLEState) (h : Nat) : Option NimBLEClient :=
  st.clients.find? (fun c => c.id == h)

/-- Embeds NimBLEDevice::createClient(): a fresh disconnected client with no
peer, appended to the client list. -/
def createClient (st : BLEState) : NimBLEClient × BLEState :=
  let c : NimBLEClient := { id := st.nextId, peer := none, connected := false }
  (c, { st with clients := st.clients ++ [c], nextId := st.nextId + 1 })

/-- Embeds NimBLEDevice::deleteClient(pClient): the client is removed from
the list. -/
def deleteClient (st : BLEState) (c : NimBLEClient) : BLEState :=
  { st with clients := st.clients.filter (fun x => !(x.id == c.id)) }

/-- Embeds the state effect of pClient->connect(advDevice, ...): the stack
decides success (the Bool argument, an input to the embedding). On success
the client becomes connected and associated with the peer address; on
failure it stays (or becomes) disconnected. -/
def clientConnect (st : BLEState) (c : NimBLEClient) (dev : NimBLEAdvertisedDevice)
    (ok : Bool) : BLEState :=
  if ok then
    { st with clients := st.clients.map (fun x =>
        if x.id == c.id then { x with peer := some dev.addr, connected := true } else x) }
  else
    { st with clients := st.clients.map (fun x =>
        if x.id == c.id then { x with connected := false } else x) }

/-- One remote characteristic of the GATT database the stack reports:
uuid, capabilities, and whether a subscribe call on it succeeds. -/
structure NimBLERemoteCharacteristic where
  uuid : UUID
  canNotify : Bool
  canIndicate : Bool
  canRead : Bool
  subscribeOk : Bool
deriving DecidableEq, Repr

/-- One remote service of the GATT database the stack reports. -/
structure NimBLERemoteService where
  uuid : UUID
  chars : List NimBLERemoteCharacteristic
deriving DecidableEq, Repr

/-- Observable calls connectToServer makes into the stack. -/
inductive Event where
  | connectCall (clientId : Nat) (deleteAttributes : Bool) (ok : Bool)
  | clientCreated (clientId : Nat)
  | clientDeleted (clientId : Nat)
  | subscribeCall (chrUuid : UUID) (notifications : Bool) (ok : Bool)
  | readCall (chrUuid : UUID)
deriving DecidableEq, Repr

/-- Successive results the stack returns for connect calls: head is the next
result, an exhausted list reads as failure. -/
def popConn (l : List Bool) : Bool × List Bool :=
  match l with
  | [] => (false, [])
  | b :: rest => (b, rest)

/-- Embeds the per-characteristic subscribe choice of main.cpp lines 204-215:
prefer notifications, else indications, else nothing. The result of the
subscribe call is only logged by the source, never acted on. -/
def subscribeChar (c : NimBLERemoteCharacteristic) : List Event :=
  if c.canNotify then [Event.subscribeCall c.uuid true c.subscribeOk]
  else if c.canIndicate then [Event.subscribeCall c.uuid false c.subscribeOk]
  else []

/-- Embeds the GATT phase of connectToServer (main.cpp lines 182-251):
enumerate every service and characteristic, subscribe where possible, then
look up service "1812" and its characteristic "2A4D" and read it when
readable. Every branch falls through to the final return true. -/
def gattEvents (services : List NimBLERemoteService) : List Event :=
  services.flatMap (fun s => s.chars.flatMap subscribeChar)
  ++ (match services.find? (fun s => s.uuid == "1812") with
      | some s =>
        match s.chars.find? (fun c => c.uuid == "2A4D") with
        | some c => if c.canRead then [Event.readCall c.uuid] else []
        | none => []
      | none => [])

/-- Result of one connectToServer run: the returned Bool, the BLE stack state
after the run, and the trace of stack calls made. -/
structure ConnectOutcome where
  ok : Bool
  ble : BLEState
  events : List Event
deriving DecidableEq, Repr

/-- Embeds main.cpp lines 142-169 followed by 171-251: no client to reuse, so
create a new one unless the connection limit is reached; a failed connect
deletes the newly created client. After a successful connect the client is
connected, so the line 171 recheck does nothing and the GATT phase runs. -/
def newClientPath (maxConn : Nat) (dev : NimBLEAdvertisedDevice) (connOk : List Bool)
    (services : List NimBLERemoteService) (st : BLEState) : ConnectOutcome :=
  if getClientListSize st ≥ maxConn then
    { ok := false, ble := st, events := [] }
  else
    let created := createClient st
    let c := created.1
    let st1 := created.2
    let r := (popConn connOk).1
    let st2 := clientConnect st1 c dev r
    if r then
      { ok := true, ble := st2,
        events := [Event.clientCreated c.id, Event.connectCall c.id true true]
                  ++ gattEvents services }
    else
      { ok := false, ble := deleteClient st2 c,
        events := [Event.clientCreated c.id, Event.connectCall c.id true false,
                   Event.clientDeleted c.id] }

/-- Embeds connectToServer (main.cpp lines 116-252). Inputs: the connection
limit (NIMBLE_MAX_CONNECTIONS), the stored advertised device (global
advDevice), the stack connect results, the remote GATT database, and
the stack state. Reuse a client known by peer address (connect with
deleteAttributes false), else a disconnected client, else create one. -/
def connectToServer (maxConn : Nat) (dev : NimBLEAdvertisedDevice) (connOk : List Bool)
    (services : List NimBLERemoteService) (st : BLEState) : ConnectOutcome :=
  if getClientListSize st ≠ 0 then
    match getClientByPeerAddress st dev.addr with
    | some c =>
      let r := (popConn connOk).1
      let st1 := clientConnect st c dev r
      if r then
        { ok := true, ble := st1,
          events := Event.connectCall c.id false true :: gattEvents services }
      else
        { ok := false, ble := st1, events := [Event.connectCall c.id false false] }
    | none =>
      match getDisconnectedClient st with
      | some c =>
        let r := (popConn connOk).1
        let st1 := clientConnect st c dev r
        if r then
          { ok := true, ble := st1,
            events := Event.connectCall c.id true true :: gattEvents services }
        else
          { ok := false, ble := st1, events := [Event.connectCall c.id true false] }
      | none => newClientPath maxConn dev connOk services st
  else
    newClientPath maxConn dev connOk services st

/-- The process-wide globals of main.cpp: doConnect, pin_level, advDevice,
plus the BLE stack state. These are the only shared cells the program has;
in particular the source defines no "connected" flag. -/
structure ProgState where
  doConnect : Bool
  pin_level : Nat
  advDevice : Option NimBLEAdvertisedDevice
  ble : BLEState
deriving DecidableEq, Repr

/-- Embeds scanCallbacks::onResult (main.cpp lines 73-85): when the
advertised device offers service "1812", stop the scan, store the device in
the global advDevice, and set doConnect; otherwise do nothing. -/
def onResult (st : ProgState) (dev : NimBLEAdvertisedDevice) : ProgState :=
  if dev.isAdvertisingService "1812" then
    { st with ble := { st.ble with scanning := false },
              advDevice := some dev,
              doConnect := true }
  else st

/-- Embeds notifyCB (main.cpp lines 95-109): the payload bytes are only
logged; the pin level is toggled (C ternary pin_level ? 0 : 1). -/
def notifyCB (st : ProgState) (pData : List Nat) (isNotify : Bool) : ProgState :=
  { st with pin_level := if st.pin_level ≠ 0 then 0 else 1 }

/-- A sequence of notification deliveries, in order. -/
def notifyN (payloads : List (List Nat)) (st : ProgState) : ProgState :=
  payloads.foldl (fun s p => notifyCB s p true) st

/-- connectToServer as it acts on the whole program state: it reads the
global advDevice and touches only the stack state, no program global. The
none case is unreachable in program runs (doConnect is only set together
with advDevice by onResult); the source would dereference a null pointer. -/
def connectToServerProg (maxConn : Nat) (connOk : List Bool)
    (services : List NimBLERemoteService) (st : ProgState) : Bool × ProgState :=
  match st.advDevice with
  | some dev =>
    let out := connectToServer maxConn dev connOk services st.ble
    (out.ok, { st with ble := out.ble })
  | none => (false, st)

/-- Observable actions of one poll loop iteration. -/
inductive TaskEvent where
  | flagCleared
  | workflowInvoked
deriving DecidableEq, Repr

/-- Result of one poll loop iteration: next state plus the iteration trace. -/
structure TaskStep where
  post : ProgState
  trace : List TaskEvent
deriving DecidableEq, Repr

/-- Embeds one iteration of connectTask (main.cpp lines 256-268): when
doConnect is observed true it is cleared first (line 258), then
connectToServer runs (line 260); either way the iteration ends. setDuring
models an advertisement delivered asynchronously by the stack while
connectToServer is executing, handled by onResult. -/
def connectTaskStep (maxConn : Nat) (connOk : List Bool)
    (services : List NimBLERemoteService)
    (setDuring : Option NimBLEAdvertisedDevice) (st : ProgState) : TaskStep :=
  if st.doConnect then
    let st1 := { st with doConnect := false }
    let st2 := (connectToServerProg maxConn connOk services st1).2
    let st3 := match setDuring with
      | some d => onResult st2 d
      | none => st2
    { post := st3, trace := [TaskEvent.flagCleared, TaskEvent.workflowInvoked] }
  else
    { post := st, trace := [] }

/-- Connection metadata the authentication callback receives. -/
structure NimBLEConnInfo where
  connHandle : Nat
  encrypted : Bool
deriving DecidableEq, Repr

/-- Embeds pClient->disconnect() reached through getClientByID: the client
with that connection handle becomes disconnected. -/
def disconnectByID (st : BLEState) (h : Nat) : BLEState :=
  { st with clients := st.clients.map (fun c =>
      if c.id == h then { c with connected := false } else c) }

/-- Embeds ClientCallbacks::onAuthenticationComplete (main.cpp lines 60-67):
when the connection is not encrypted, disconnect the client found by the
connection handle; otherwise return with no effect. -/
def onAuthenticationComplete (info : NimBLEConnInfo) (st : BLEState) : BLEState :=
  if !info.encrypted then disconnectByID st info.connHandle
  else st

/-- Link establishment outcome alone, stated from the spec reading of the
workflow (client acquisition and the single connect attempt), with no
reference to the GATT database. Used to show the Bool connectToServer
returns reports link establishment only. -/
def linkEstablishedSpec (maxConn : Nat) (dev : NimBLEAdvertisedDevice)
    (connOk : List Bool) (st : BLEState) : Bool :=
  if getClientListSize st ≠ 0 then
    match getClientByPeerAddress st dev.addr with
    | some _ => (popConn connOk).1
    | none =>
      match getDisconnectedClient st with
      | some _ => (popConn connOk).1
      | none =>
        if getClientListSize st ≥ maxConn then false else (popConn connOk).1
  else
    if getClientListSize st ≥ maxConn then false else (popConn connOk).1

/-- Whether some client in the list is connected and associated with the
given peer address (Bool, so concrete runs evaluate). -/
def hasConnectedPeer (addr : Nat) (l : List NimBLEClient) : Bool :=
  l.any (fun c => c.peer == some addr && c.connected)

/-- Concrete device advertising the target HID service "1812". -/
def devA : NimBLEAdvertisedDevice := { addr := 1, advServices := ["1812"] }

/-- Concrete device advertising only the battery service "180F". -/
def devB : NimBLEAdvertisedDevice := { addr := 2, advServices := ["180F"] }

/-- Concrete program state: idle, pin low, devA stored, empty client list. -/
def progA : ProgState :=
  { doConnect := false, pin_level := 0, advDevice := some devA,
    ble := { clients := [], scanning := false, nextId := 0 } }

/-- Concrete program state: connect requested, devA stored, empty client list. -/
def progFail : ProgState :=
  { progA with doConnect := true }

/-- Concrete stack state: one client connected to a different peer. -/
def bleB : BLEState :=
  { clients := [{ id := 0, peer := some 9, connected := true }],
    scanning := false, nextId := 1 }

/-- Concrete stack state: one disconnected client that knows peer address 1. -/
def bleC : BLEState :=
  { clients := [{ id := 0, peer := some 1, connected := false }],
    scanning := false, nextId := 1 }

/-- Concrete stack state: one connected client with connection handle 5. -/
def bleA : BLEState :=
  { clients := [{ id := 5, peer := some 1, connected := true }],
    scanning := false, nextId := 6 }

/-- Concrete connection info: handle 5, encryption not established. -/
def infoA : NimBLEConnInfo := { connHandle := 5, encrypted := false }

/-- Concrete connection info: handle 5, encryption established. -/
def infoEnc : NimBLEConnInfo := { connHandle := 5, encrypted := true }

/-! ## Helper lemmas -/

theorem map_update_id_ne (l : List NimBLEClient) (n : Nat)
    (g : NimBLEClient → NimBLEClient) (h : ∀ x ∈ l, x.id ≠ n) :
    l.map (fun x => if x.id == n then g x else x) = l := by
  induction l with
  | nil => rfl
  | cons a t ih =>
    have ha : (a.id == n) = false := by
      simpa using h a (List.mem_cons_self a t)
    simp only [List.map_cons, ha, if_false, Bool.false_eq_true, List.cons.injEq, true_and]
    exact ih (fun x hx => h x (List.mem_cons_of_mem a hx))

theorem filter_id_ne (l : List NimBLEClient) (n : Nat)
    (h : ∀ x ∈ l, x.id ≠ n) :
    l.filter (fun x => !(x.id == n)) = l := by
  induction l with
  | nil => rfl
  | cons a t ih =>
    have ha : (a.id == n) = false := by
      simpa using h a (List.mem_cons_self a t)
    simp only [List.filter_cons, ha, Bool.not_false, if_true, List.cons.injEq, true_and]
    exact ih (fun x hx => h x (List.mem_cons_of_mem a hx))

theorem find?_map_id_pred (l : List NimBLEClient) (f : NimBLEClient → NimBLEClient)
    (p : NimBLEClient → Bool) (hp : ∀ x, p (f x) = p x) :
    (l.map f).find? p = (l.find? p).map f := by
  induction l with
  | nil => rfl
  | cons a t ih =>
    cases hpa : p a with
    | true =>
      rw [List.map_cons, List.find?_cons_of_pos _ (by rw [hp]; exact hpa),
          List.find?_cons_of_pos _ hpa]
      rfl
    | false =>
      rw [List.map_cons, List.find?_cons_of_neg _ (by rw [hp]; simp [hpa]),
          List.find?_cons_of_neg _ (by simp [hpa]), ih]

theorem clientConnect_true_mem (st : BLEState) (c : NimBLEClient)
    (dev : NimBLEAdvertisedDevice) (hc : c ∈ st.clients) :
    { c with peer := some dev.addr, connected := true } ∈
      (clientConnect st c dev true).clients := by
  unfold clientConnect
  simp only [if_true]
  have h2 := List.mem_map_of_mem
      (fun x => if x.id == c.id then
        { x with peer := some dev.addr, connected := true } else x) hc
  simpa using h2

theorem connectToServer_scanning (maxConn : Nat) (dev : NimBLEAdvertisedDevice)
    (connOk : List Bool) (services : List NimBLERemoteService) (st : BLEState) :
    (connectToServer maxConn dev connOk services st).ble.scanning = st.scanning := by
  unfold connectToServer newClientPath
  by_cases hne : getClientListSize st ≠ 0
  · rw [if_pos hne]
    cases hcp : getClientByPeerAddress st dev.addr with
    | some c =>
      cases hr : (popConn connOk).1 <;> simp [hr, clientConnect]
    | none =>
      cases hdc : getDisconnectedClient st with
      | some c =>
        cases hr : (popConn connOk).1 <;> simp [hr, clientConnect]
      | none =>
        by_cases hmax : getClientListSize st ≥ maxConn
        · simp [hmax]
        · cases hr : (popConn connOk).1 <;>
            simp [hmax, hr, clientConnect, createClient, deleteClient]
  · rw [if_neg hne]
    by_cases hmax : getClientListSize st ≥ maxConn
    · simp [hmax]
    · cases hr : (popConn connOk).1 <;>
        simp [hmax, hr, clientConnect, createClient, deleteClient]

/-! ## Claim theorems -/

/-- C2: for every advertisement event delivered to scanCallbacks::onResult,
the connect-request flag is set, scanning is stopped and the device
reference is stored exactly when the advertised service UUID set contains
the target UUID "1812"; an event whose UUID set excludes the target leaves
the whole program state, the flag included, unchanged (so scanning
continues and the flag stays unset when it was unset). -/
theorem onResult_target_uuid (st : ProgState) (dev : NimBLEAdvertisedDevice) :
    ("1812" ∈ dev.advServices →
      onResult st dev = { st with ble := { st.ble with scanning := false },
                                  advDevice := some dev, doConnect := true }) ∧
    ("1812" ∉ dev.advServices → onResult st dev = st) := by
  constructor <;> intro h <;>
    simp [onResult, NimBLEAdvertisedDevice.isAdvertisingService,
          List.contains, h]

theorem onResult_target_uuid_witness :
    (onResult progA devA = { progA with ble := { progA.ble with scanning := false },
                                        advDevice := some devA, doConnect := true }) ∧
    onResult progA devB = progA :=
  ⟨(onResult_target_uuid progA devA).1 (by decide),
   (onResult_target_uuid progA devB).2 (by decide)⟩

theorem notifyN_parity (payloads : List (List Nat)) (st : ProgState)
    (h : st.pin_level ≤ 1) :
    (notifyN payloads st).pin_level = (st.pin_level + payloads.length) % 2 := by
  induction payloads generalizing st with
  | nil =>
    simp only [notifyN, List.foldl_nil, List.length_nil, Nat.add_zero]
    omega
  | cons p t ih =>
    have hle : (notifyCB st p true).pin_level ≤ 1 := by
      simp only [notifyCB]
      split <;> omega
    have hstep : notifyN (p :: t) st = notifyN t (notifyCB st p true) := rfl
    rw [hstep, ih (notifyCB st p true) hle]
    simp only [notifyCB, List.length_cons]
    split <;> omega

/-- C4: starting from pin level 0, a sequence of N notification deliveries
to notifyCB leaves the pin level at N mod 2 — each delivery toggles the bit
relative to its previous value — for every list of payloads, so the result
is independent of the payload contents. -/
theorem notifyCB_pin_parity (payloads : List (List Nat)) (st : ProgState)
    (h : st.pin_level = 0) :
    (notifyN payloads st).pin_level = payloads.length % 2 := by
  have h2 := notifyN_parity payloads st (by omega)
  rw [h] at h2
  simpa using h2

theorem notifyCB_pin_parity_witness :
    (notifyN [[1], [2, 3], []] progA).pin_level = 1 := by
  have := notifyCB_pin_parity [[1], [2, 3], []] progA rfl
  simpa using this

/-- C9: when ClientCallbacks::onAuthenticationComplete observes that
encryption was not established, the client with that connection handle is
forcibly disconnected (it is still found by the handle, now with connected
false); when encryption is established the callback does nothing. -/
theorem onAuthenticationComplete_spec (info : NimBLEConnInfo) (st : BLEState)
    (c : NimBLEClient) (hc : getClientByID st info.connHandle = some c) :
    (info.encrypted = true → onAuthenticationComplete info st = st) ∧
    (info.encrypted = false →
      getClientByID (onAuthenticationComplete info st) info.connHandle =
        some { c with connected := false }) := by
  constructor
  · intro h
    simp [onAuthenticationComplete, h]
  · intro h
    have hred : onAuthenticationComplete info st = disconnectByID st info.connHandle := by
      simp [onAuthenticationComplete, h]
    rw [hred]
    unfold disconnectByID getClientByID
    rw [find?_map_id_pred _ _ _ (fun x => by split <;> rfl)]
    unfold getClientByID at hc
    rw [hc]
    have hceq : c.id = info.connHandle := by
      simpa using List.find?_some hc
    simp [hceq]

theorem onAuthenticationComplete_spec_witness :
    onAuthenticationComplete infoEnc bleA = bleA ∧
    getClientByID (onAuthenticationComplete infoA bleA) 5 =
      some { id := 5, peer := some 1, connected := false } :=
  ⟨(onAuthenticationComplete_spec infoEnc bleA
      { id := 5, peer := some 1, connected := true } (by decide)).1 rfl,
   (onAuthenticationComplete_spec infoA bleA
      { id := 5, peer := some 1, connected := true } (by decide)).2 rfl⟩

/-- C6 amended: one poll loop iteration of connectTask never changes the
scanning state — in particular it never (re)starts scanning, whether or not
the device is connected; the scan restart in its failure branch is commented
out in the source (main.cpp line 264), and no should-scan flag exists. -/
theorem connectTask_never_starts_scan (maxConn : Nat) (connOk : List Bool)
    (services : List NimBLERemoteService) (st : ProgState) :
    (connectTaskStep maxConn connOk services none st).post.ble.scanning =
      st.ble.scanning := by
  unfold connectTaskStep
  by_cases hd : st.doConnect = true
  · rw [if_pos hd]
    dsimp only
    unfold connectToServerProg
    cases hadv : st.advDevice with
    | some dev =>
      simpa using connectToServer_scanning maxConn dev connOk services st.ble
    | none => rfl
  · rw [if_neg hd]

/-- C6 counterexample: in the state progA no connect is in progress
(doConnect false), no client exists so the device is not connected, and
scanning is off (exactly the situation after a failed connect attempt, where
the claim says the loop restarts scanning); the iteration is a no-op and
scanning stays off. Also shown: an iteration whose connect attempt fails
(progFail with connection limit 0) ends with scanning still off. -/
theorem connectTask_no_scan_restart_cex :
    progA.doConnect = false ∧ progA.ble.scanning = false ∧
    progA.ble.clients = [] ∧
    (connectTaskStep 3 [] [] none progA).post = progA ∧
    (connectToServerProg 0 [false] [] { progFail with doConnect := false }).1 = false ∧
    (connectTaskStep 0 [false] [] none progFail).post.ble.scanning = false := by
  exact ⟨rfl, rfl, rfl, rfl, rfl, rfl⟩

/-- C10: the Bool connectToServer returns reports link establishment only:
it equals linkEstablishedSpec, which does not depend on the remote GATT
database, so once a connection is established the workflow returns true for
every GATT database — also when service "1812" is absent, characteristic
"2A4D" is absent, or any subscribe call fails. -/
theorem connectToServer_ok_iff_link (maxConn : Nat) (dev : NimBLEAdvertisedDevice)
    (connOk : List Bool) (services : List NimBLERemoteService) (st : BLEState) :
    (connectToServer maxConn dev connOk services st).ok =
      linkEstablishedSpec maxConn dev connOk st := by
  unfold connectToServer linkEstablishedSpec newClientPath
  by_cases hne : getClientListSize st ≠ 0
  · rw [if_pos hne, if_pos hne]
    cases hcp : getClientByPeerAddress st dev.addr with
    | some c => cases hr : (popConn connOk).1 <;> simp [hr]
    | none =>
      cases hdc : getDisconnectedClient st with
      | some c => cases hr : (popConn connOk).1 <;> simp [hr]
      | none =>
        by_cases hmax : getClientListSize st ≥ maxConn
        · simp [hmax]
        · cases hr : (popConn connOk).1 <;> simp [hmax, hr]
  · rw [if_neg hne, if_neg hne]
    by_cases hmax : getClientListSize st ≥ maxConn
    · simp [hmax]
    · cases hr : (popConn connOk).1 <;> simp [hmax, hr]

theorem connectToServer_no_reuse (maxConn : Nat) (dev : NimBLEAdvertisedDevice)
    (connOk : List Bool) (services : List NimBLERemoteService) (st : BLEState)
    (h1 : getClientByPeerAddress st dev.addr = none)
    (h2 : getDisconnectedClient st = none) :
    connectToServer maxConn dev connOk services st =
      newClientPath maxConn dev connOk services st := by
  unfold connectToServer
  by_cases hne : getClientListSize st ≠ 0
  · rw [if_pos hne, h1, h2]
  · rw [if_neg hne]

theorem newClientPath_ok_connected (maxConn : Nat) (dev : NimBLEAdvertisedDevice)
    (connOk : List Bool) (services : List NimBLERemoteService) (st : BLEState) :
    (newClientPath maxConn dev connOk services st).ok = true →
    hasConnectedPeer dev.addr (newClientPath maxConn dev connOk services st).ble.clients
      = true := by
  unfold newClientPath
  by_cases hmax : getClientListSize st ≥ maxConn
  · simp [hmax]
  · cases hr : (popConn connOk).1 with
    | false => simp [hmax, hr]
    | true =>
      intro _
      have hcm : ({ id := st.nextId, peer := none, connected := false } : NimBLEClient)
          ∈ (createClient st).2.clients := by
        simp [createClient]
      have hmem := clientConnect_true_mem (createClient st).2
          { id := st.nextId, peer := none, connected := false } dev hcm
      simp only [hmax, hr, hasConnectedPeer, if_neg hmax, if_true]
      rw [List.any_eq_true]
      exact ⟨_, hmem, by simp⟩

theorem connectToServer_ok_connected (maxConn : Nat) (dev : NimBLEAdvertisedDevice)
    (connOk : List Bool) (services : List NimBLERemoteService) (st : BLEState) :
    (connectToServer maxConn dev connOk services st).ok = true →
    hasConnectedPeer dev.addr (connectToServer maxConn dev connOk services st).ble.clients
      = true := by
  unfold connectToServer
  by_cases hne : getClientListSize st ≠ 0
  · rw [if_pos hne]
    cases hcp : getClientByPeerAddress st dev.addr with
    | some c =>
      have hcm : c ∈ st.clients := List.mem_of_find?_eq_some hcp
      cases hr : (popConn connOk).1 with
      | false => simp [hr]
      | true =>
        intro _
        have hmem := clientConnect_true_mem st c dev hcm
        simp only [hr, hasConnectedPeer, if_true]
        rw [List.any_eq_true]
        exact ⟨_, hmem, by simp⟩
    | none =>
      cases hdc : getDisconnectedClient st with
      | some c =>
        have hcm : c ∈ st.clients := List.mem_of_find?_eq_some hdc
        cases hr : (popConn connOk).1 with
        | false => simp [hr]
        | true =>
          intro _
          have hmem := clientConnect_true_mem st c dev hcm
          simp only [hr, hasConnectedPeer, if_true]
          rw [List.any_eq_true]
          exact ⟨_, hmem, by simp⟩
      | none => exact newClientPath_ok_connected maxConn dev connOk services st
  · rw [if_neg hne]
    exact newClientPath_ok_connected maxConn dev connOk services st

/-- C1 counterexample: a run of the connection workflow that succeeds
(returns true) while every shared flag of the program is unchanged:
doConnect — the only process-wide boolean flag main.cpp defines — stays
false, and pin_level stays 0. The source has no "connected" flag, so a
successful run does not set any shared connected flag to true. -/
theorem connectToServer_no_connected_flag_cex :
    (connectToServerProg 3 [true] [] progA).1 = true ∧
    progA.doConnect = false ∧
    (connectToServerProg 3 [true] [] progA).2.doConnect = false ∧
    (connectToServerProg 3 [true] [] progA).2.pin_level = 0 :=
  ⟨rfl, rfl, rfl, rfl⟩

/-- C1 amended: connectToServer returns true exactly on the successful runs
and false on the failed ones, but mutates no process-wide flag — main.cpp
maintains no "connected" flag; connection status lives only in the stack
client objects: a successful run leaves some client connected to the stored
peer address, while doConnect, pin_level and advDevice are untouched in
every run. -/
theorem connectToServer_result_and_globals (maxConn : Nat) (connOk : List Bool)
    (services : List NimBLERemoteService) (st : ProgState)
    (dev : NimBLEAdvertisedDevice) (h : st.advDevice = some dev) :
    (connectToServerProg maxConn connOk services st).2.doConnect = st.doConnect ∧
    (connectToServerProg maxConn connOk services st).2.pin_level = st.pin_level ∧
    (connectToServerProg maxConn connOk services st).2.advDevice = st.advDevice ∧
    ((connectToServerProg maxConn connOk services st).1 = true →
      hasConnectedPeer dev.addr
        (connectToServerProg maxConn connOk services st).2.ble.clients = true) := by
  unfold connectToServerProg
  rw [h]
  exact ⟨rfl, rfl, rfl, connectToServer_ok_connected maxConn dev connOk services st.ble⟩

theorem connectToServer_result_and_globals_witness :
    (connectToServerProg 3 [true] [] progA).2.doConnect = false ∧
    (connectToServerProg 3 [true] [] progA).2.pin_level = 0 ∧
    (connectToServerProg 3 [true] [] progA).2.advDevice = some devA ∧
    hasConnectedPeer 1 (connectToServerProg 3 [true] [] progA).2.ble.clients = true := by
  have h := connectToServer_result_and_globals 3 [true] [] progA devA rfl
  exact ⟨h.1, h.2.1, h.2.2.1, h.2.2.2 rfl⟩

/-- C5: when connectToServer finds no reusable client (none associated with
the peer address, none disconnected), the limit is not reached and the
connect attempt fails, the workflow creates a client, fails the connect,
deletes exactly that client — the client list is restored — and returns
false. The last hypothesis is the stack invariant that nextId is fresh. -/
theorem connectToServer_new_client_released (maxConn : Nat)
    (dev : NimBLEAdvertisedDevice) (connOk : List Bool)
    (services : List NimBLERemoteService) (st : BLEState)
    (h1 : getClientByPeerAddress st dev.addr = none)
    (h2 : getDisconnectedClient st = none)
    (h3 : getClientListSize st < maxConn)
    (h4 : (popConn connOk).1 = false)
    (h5 : ∀ x ∈ st.clients, x.id ≠ st.nextId) :
    (connectToServer maxConn dev connOk services st).ok = false ∧
    (connectToServer maxConn dev connOk services st).ble.clients = st.clients ∧
    (connectToServer maxConn dev connOk services st).events =
      [Event.clientCreated st.nextId, Event.connectCall st.nextId true false,
       Event.clientDeleted st.nextId] := by
  rw [connectToServer_no_reuse maxConn dev connOk services st h1 h2]
  unfold newClientPath createClient clientConnect deleteClient
  rw [if_neg (by omega)]
  simp only [h4, Bool.false_eq_true, if_false]
  refine ⟨trivial, ?_, trivial⟩
  simp only [List.map_append, List.map_cons, List.map_nil, List.filter_append]
  rw [map_update_id_ne st.clients st.nextId _ h5, filter_id_ne st.clients st.nextId h5]
  simp

theorem connectToServer_new_client_released_witness :
    (connectToServer 2 devA [] [] bleB).ok = false ∧
    (connectToServer 2 devA [] [] bleB).ble.clients =
      [{ id := 0, peer := some 9, connected := true }] ∧
    (connectToServer 2 devA [] [] bleB).events =
      [Event.clientCreated 1, Event.connectCall 1 true false,
       Event.clientDeleted 1] := by
  have h := connectToServer_new_client_released 2 devA [] [] bleB
      (by decide) (by decide) (by decide) rfl (by decide)
  exact ⟨h.1, h.2.1, h.2.2⟩

/-- C7: when connectToServer finds no reusable client and the client list
has reached the connection limit, it returns false without creating a
client, connecting, or changing the stack state (empty event trace). -/
theorem connectToServer_connection_limit (maxConn : Nat)
    (dev : NimBLEAdvertisedDevice) (connOk : List Bool)
    (services : List NimBLERemoteService) (st : BLEState)
    (h1 : getClientByPeerAddress st dev.addr = none)
    (h2 : getDisconnectedClient st = none)
    (h3 : maxConn ≤ getClientListSize st) :
    connectToServer maxConn dev connOk services st =
      { ok := false, ble := st, events := [] } := by
  rw [connectToServer_no_reuse maxConn dev connOk services st h1 h2]
  unfold newClientPath
  rw [if_pos h3]

theorem connectToServer_connection_limit_witness :
    connectToServer 1 devA [] [] bleB = { ok := false, ble := bleB, events := [] } :=
  connectToServer_connection_limit 1 devA [] [] bleB (by decide) (by decide) (by decide)

/-- C8: whenever connectToServer reuses the client already associated with
the stored peer address, the single connect call it issues passes false as
the deleteAttributes argument (main.cpp line 127), skipping attribute
re-discovery on reconnect — whatever the outcome of that call. -/
theorem connectToServer_reuse_no_refresh (maxConn : Nat)
    (dev : NimBLEAdvertisedDevice) (connOk : List Bool)
    (services : List NimBLERemoteService) (st : BLEState) (c : NimBLEClient)
    (hcp : getClientByPeerAddress st dev.addr = some c) :
    (connectToServer maxConn dev connOk services st).events.head? =
      some (Event.connectCall c.id false ((popConn connOk).1)) := by
  have hne : getClientListSize st ≠ 0 := by
    have hnil := List.ne_nil_of_mem (List.mem_of_find?_eq_some hcp)
    simp only [getClientListSize, ne_eq, List.length_eq_zero]
    exact hnil
  unfold connectToServer
  rw [if_pos hne, hcp]
  cases hr : (popConn connOk).1 <;> simp [hr]

theorem connectToServer_reuse_no_refresh_witness :
    (connectToServer 3 devA [true] [] bleC).events.head? =
      some (Event.connectCall 0 false true) :=
  connectToServer_reuse_no_refresh 3 devA [true] [] bleC
    { id := 0, peer := some 1, connected := false } rfl

/-- C3: on a poll loop iteration that observes the connect-request flag, the
iteration trace is exactly flag-clear followed by one workflow invocation —
the flag is cleared before the workflow runs, and the sequential loop runs
at most one invocation per iteration, so the workflow is never invoked
concurrently with itself. An advertisement carrying the target UUID that
arrives while the workflow executes leaves the flag set at the end of the
iteration, and the next iteration re-observes it and invokes the workflow
again: the request is not lost. -/
theorem connectTaskStep_trace_of_flag (maxConn : Nat) (connOk : List Bool)
    (services : List NimBLERemoteService)
    (setDuring : Option NimBLEAdvertisedDevice) (st : ProgState)
    (hflag : st.doConnect = true) :
    (connectTaskStep maxConn connOk services setDuring st).trace =
      [TaskEvent.flagCleared, TaskEvent.workflowInvoked] := by
  unfold connectTaskStep
  rw [if_pos hflag]

theorem connectTask_clears_flag_before_workflow (maxConn : Nat)
    (connOk connOk2 : List Bool) (services services2 : List NimBLERemoteService)
    (d : NimBLEAdvertisedDevice) (st : ProgState)
    (hflag : st.doConnect = true) (hd : "1812" ∈ d.advServices) :
    (connectTaskStep maxConn connOk services (some d) st).trace =
      [TaskEvent.flagCleared, TaskEvent.workflowInvoked] ∧
    (connectTaskStep maxConn connOk services (some d) st).post.doConnect = true ∧
    (connectTaskStep maxConn connOk2 services2 none
        (connectTaskStep maxConn connOk services (some d) st).post).trace =
      [TaskEvent.flagCleared, TaskEvent.workflowInvoked] := by
  have hpost : (connectTaskStep maxConn connOk services (some d) st).post.doConnect
      = true := by
    unfold connectTaskStep
    rw [if_pos hflag]
    simp [onResult, NimBLEAdvertisedDevice.isAdvertisingService, List.contains, hd]
  exact ⟨connectTaskStep_trace_of_flag maxConn connOk services (some d) st hflag,
         hpost,
         connectTaskStep_trace_of_flag maxConn connOk2 services2 none _ hpost⟩

theorem connectTask_clears_flag_before_workflow_witness :
    (connectTaskStep 3 [true] [] (some devA) progFail).trace =
      [TaskEvent.flagCleared, TaskEvent.workflowInvoked] ∧
    (connectTaskStep 3 [true] [] (some devA) progFail).post.doConnect = true ∧
    (connectTaskStep 3 [] [] none
        (connectTaskStep 3 [true] [] (some devA) progFail).post).trace =
      [TaskEvent.flagCleared, TaskEvent.workflowInvoked] :=
  connectTask_clears_flag_before_workflow 3 [true] [] [] [] devA progFail rfl
    (by decide)

end EspHidHost
